import Mathlib

/-!
# cert-manager-webhook-porkbun: the DNS-01 challenge solver

A shallow embedding of `src/porkbun/porkbun.go` (`readConfig`, `resolveSecretRef`,
`Present`, `CleanUp`) together with the library functions it calls
(`strings.TrimSuffix`, `strconv.ParseInt`), and the properties of the solver.

Conventions of the embedding:

* a Go `string` is a Lean `String`; slicing is done on the list of its characters
  (on well-formed UTF-8 text a suffix by bytes is a suffix by characters, and
  `strconv.ParseUint` rejects every byte outside ASCII as it rejects the character);
* `strings.HasSuffix`, `strings.TrimSuffix`, `strconv.ParseUint` and `strconv.ParseInt`
  follow the Go standard library, statement by statement;
* a Go `error` result is an `Option`: `none` is `nil`;
* the cluster secret store, the JSON decoder and the Porkbun API client are the
  environment of the solver: they are parameters (`Env`, `Client`), the client being a
  state-passing interface over an arbitrary remote state `σ`;
* every call made on the Porkbun client is appended to a log (`World.calls`), so that
  "which remote calls are issued" is a property of the final state;
* `klog` output is not modelled.
-/

namespace Porkbun

set_option maxRecDepth 20000

/-! ## Go library functions -/

/-- Go `strings.HasSuffix`:
`len(s) >= len(suffix) && s[len(s)-len(suffix):] == suffix`. -/
def HasSuffix (s suffix : String) : Bool :=
  decide (s.data.length ≥ suffix.data.length) &&
    (s.data.drop (s.data.length - suffix.data.length) == suffix.data)

/-- Go `strings.TrimSuffix`:
`if HasSuffix(s, suffix) { return s[:len(s)-len(suffix)] }; return s`. -/
def TrimSuffix (s suffix : String) : String :=
  if HasSuffix s suffix then ⟨s.data.take (s.data.length - suffix.data.length)⟩ else s

/-- The `Err` field of a Go `*strconv.NumError`. -/
inductive ErrKind where
  | ErrSyntax
  | ErrRange
  | ErrBase
  | ErrBitSize
  deriving DecidableEq, Repr

/-- Go `strconv.NumError`. -/
structure NumError where
  Func : String
  Num : String
  Err : ErrKind
  deriving DecidableEq, Repr

/-- Go `strconv.lower`: `c | ('x' - 'X')` on a byte. -/
def lower (c : Char) : Nat := c.toNat ||| 0x20

/-- The value of one character as a digit in `strconv.ParseUint`: the decimal digits, then
the letters (either case) from 10 on; `none` is the `default` case of the switch. -/
def digitOf (c : Char) : Option Nat :=
  if '0'.toNat ≤ c.toNat ∧ c.toNat ≤ '9'.toNat then some (c.toNat - '0'.toNat)
  else if 'a'.toNat ≤ lower c ∧ lower c ≤ 'z'.toNat then some (lower c - 'a'.toNat + 10)
  else none

/-- The digit loop of `strconv.ParseUint` (`for _, c := range []byte(s)`), with the
accumulator `n` a `uint64`. `s0` is the whole input, for the error values. -/
def parseUintLoop (s0 : String) (base maxVal cutoff : Nat) :
    List Char → Nat → Nat × Option NumError
  | [], n => (n, none)
  | c :: cs, n =>
    match digitOf c with
    | none => (0, some ⟨"ParseUint", s0, .ErrSyntax⟩)
    | some d =>
      if d ≥ base then (0, some ⟨"ParseUint", s0, .ErrSyntax⟩)
      else if n ≥ cutoff then (maxVal, some ⟨"ParseUint", s0, .ErrRange⟩)
      else
        let n := (n * base) % 2 ^ 64
        let n1 := (n + d) % 2 ^ 64
        if n1 < n ∨ n1 > maxVal then (maxVal, some ⟨"ParseUint", s0, .ErrRange⟩)
        else parseUintLoop s0 base maxVal cutoff cs n1

/-- Go `strconv.ParseUint(s, base, bitSize)` for an explicit base `2 ≤ base ≤ 36`
(the solver passes the constant 10). Base 0, which selects the base from a prefix of
`s` and allows underscores, is never passed by this program and is reported here as an
invalid base. `IntSize` is 64. -/
def ParseUint (s : String) (base bitSize : Nat) : Nat × Option NumError :=
  if s = "" then (0, some ⟨"ParseUint", s, .ErrSyntax⟩)
  else if ¬ (2 ≤ base ∧ base ≤ 36) then (0, some ⟨"ParseUint", s, .ErrBase⟩)
  else if bitSize > 64 then (0, some ⟨"ParseUint", s, .ErrBitSize⟩)
  else
    let bitSize := if bitSize = 0 then 64 else bitSize
    let cutoff := (2 ^ 64 - 1) / base + 1
    let maxVal := (2 ^ bitSize - 1) % 2 ^ 64
    parseUintLoop s base maxVal cutoff s.data 0

/-- Conversion of an integer to Go `int64` (two's complement wrap-around). -/
def toInt64 (x : Int) : Int := (x + 2 ^ 63) % 2 ^ 64 - 2 ^ 63

/-- Go `strconv.ParseInt(s, base, bitSize)`: returns the value and the error, as the Go
function does (on a range error the value is the nearest bound). -/
def ParseInt (s : String) (base bitSize : Nat) : Int × Option NumError :=
  if s = "" then (0, some ⟨"ParseInt", s, .ErrSyntax⟩)
  else
    let s0 := s
    -- Pick off leading sign.
    let neg : Bool := s.data.head? == some '-'
    let s : String :=
      if s.data.head? == some '+' then ⟨s.data.tail⟩
      else if s.data.head? == some '-' then ⟨s.data.tail⟩
      else s
    -- Convert unsigned and check range.
    let (un, err) := ParseUint s base bitSize
    match err.filter (fun e => e.Err ≠ .ErrRange) with
    | some e => (0, some ⟨"ParseInt", s0, e.Err⟩)
    | none =>
      let bitSize := if bitSize = 0 then 64 else bitSize
      let cutoff := 2 ^ (bitSize - 1) % 2 ^ 64
      if !neg && decide (un ≥ cutoff) then
        (toInt64 (cutoff - 1 : Nat), some ⟨"ParseInt", s0, .ErrRange⟩)
      else if neg && decide (un > cutoff) then
        (toInt64 (-toInt64 cutoff), some ⟨"ParseInt", s0, .ErrRange⟩)
      else
        let n := toInt64 un
        (if neg then toInt64 (-n) else n, none)

/-! ## Data model -/

/-- The record type of the Porkbun client (`porkbun.Record`), with the fields the solver
reads or writes (`Type_` is the Go field `Type`). -/
structure Record where
  ID : String
  Name : String
  Type_ : String
  Content : String
  TTL : String
  deriving DecidableEq, Repr

/-- Kubernetes `corev1.SecretKeySelector`: the name of a secret and a key within it. -/
structure SecretKeySelector where
  Name : String
  Key : String
  deriving DecidableEq, Repr

/-- The solver configuration (`type Config struct`), three secret references. -/
structure Config where
  ApiKeySecretRef : SecretKeySelector
  SecretKeySecretRef : SecretKeySelector
  ZoneNameSecretRef : SecretKeySelector
  deriving DecidableEq, Repr

/-- The fields of `acme.ChallengeRequest` the solver uses. `Config` is the raw JSON of
the configuration blob, `none` when the request carries none (`request.Config == nil`). -/
structure ChallengeRequest where
  ResolvedFQDN : String
  ResolvedZone : String
  Key : String
  ResourceNamespace : String
  Config : Option String
  deriving DecidableEq, Repr

/-- A Kubernetes secret: its `Data` map from keys to values. -/
structure Secret where
  Data : String → Option String

/-- The Porkbun API client (`*porkbun.Client`) as a state-passing interface over a
remote state `σ`: each method takes the remote state and returns its result and the
remote state after the call. -/
structure Client (σ : Type) where
  RetrieveRecords : String → σ → Except String (List Record) × σ
  CreateRecord : String → Record → σ → Except String Int × σ
  DeleteRecord : String → Int → σ → Option String × σ

/-- The environment of the solver: the JSON decoder applied to a zero `Config`
(`json.Unmarshal(raw, &config)`), the read of a secret in a namespace
(`kube.CoreV1().Secrets(ns).Get(name)`) and the client constructor
(`porkbun.New(secretKey, apiKey)`). -/
structure Env (σ : Type) where
  Unmarshal : String → Except String Config
  GetSecret : String → String → Except String Secret
  New : String → String → Client σ

/-- One call issued on the Porkbun client. -/
inductive Call where
  | RetrieveRecords (domain : String)
  | CreateRecord (domain : String) (record : Record)
  | DeleteRecord (domain : String) (id : Int)
  deriving DecidableEq, Repr

/-- The errors the solver returns, one constructor for each `fmt.Errorf` of the source,
carrying the arguments of the format. -/
inductive Error where
  /-- Format `"config error: %s"` -/
  | configError (err : String)
  /-- Format `"get error for secret %q %q: %s"` -/
  | getError (ns name err : String)
  /-- Format `"secret %q %q does not contain key %q: %s"` -/
  | noKeyError (ns name key : String)
  /-- Format `"initialization error: %s"` -/
  | initializationError (err : Error)
  /-- Format `"retrieve records error: %s"` -/
  | retrieveRecordsError (err : String)
  /-- Format `"create record error: %s"` -/
  | createRecordError (err : String)
  /-- Format `"found TXT record, but it's ID is malformed: %s"` -/
  | malformedIDError (err : NumError)
  /-- Format `"delete record error: %s"` -/
  | deleteRecordError (err : String)
  deriving DecidableEq, Repr

/-- The mutable state a call of the solver runs in: the `ZoneName` field of the
`PorkbunSolver`, the state of the remote provider, and the log of the calls issued on
the Porkbun client so far, oldest first. -/
structure World (σ : Type) where
  ZoneName : String
  remote : σ
  calls : List Call

/-! ## The solver -/

/-- `client.RetrieveRecords(ctx, domain)`, logged. -/
def World.RetrieveRecords {σ : Type} (client : Client σ) (domain : String) (e : World σ) :
    Except String (List Record) × World σ :=
  let r := client.RetrieveRecords domain e.remote
  (r.1, { e with remote := r.2, calls := e.calls ++ [Call.RetrieveRecords domain] })

/-- `client.CreateRecord(ctx, domain, record)`, logged. -/
def World.CreateRecord {σ : Type} (client : Client σ) (domain : String) (record : Record)
    (e : World σ) : Except String Int × World σ :=
  let r := client.CreateRecord domain record e.remote
  (r.1, { e with remote := r.2, calls := e.calls ++ [Call.CreateRecord domain record] })

/-- `client.DeleteRecord(ctx, domain, id)`, logged. -/
def World.DeleteRecord {σ : Type} (client : Client σ) (domain : String) (id : Int)
    (e : World σ) : Option String × World σ :=
  let r := client.DeleteRecord domain id e.remote
  (r.1, { e with remote := r.2, calls := e.calls ++ [Call.DeleteRecord domain id] })

/-- `PorkbunSolver.resolveSecretRef`: read the secret `selector.Name` in the namespace
of the request and take the value under `selector.Key`. -/
def resolveSecretRef {σ : Type} (env : Env σ) (selector : SecretKeySelector)
    (ch : ChallengeRequest) : Except Error String :=
  match env.GetSecret ch.ResourceNamespace selector.Name with
  | .error err => .error (.getError ch.ResourceNamespace selector.Name err)
  | .ok secret =>
    match secret.Data selector.Key with
    | none => .error (.noKeyError ch.ResourceNamespace selector.Name selector.Key)
    | some bytes => .ok bytes

/-- The decoding step of `readConfig`: the zero `Config` when the request has no
configuration, the decoded one otherwise, a configuration error when decoding fails. -/
def decodeConfig {σ : Type} (env : Env σ) (request : ChallengeRequest) :
    Except Error Config :=
  match request.Config with
  | none => .ok ⟨⟨"", ""⟩, ⟨"", ""⟩, ⟨"", ""⟩⟩
  | some raw =>
    match env.Unmarshal raw with
    | .error err => .error (.configError err)
    | .ok config => .ok config

/-- `PorkbunSolver.readConfig`: decode the configuration, resolve the API key, the secret
key and the zone name in this order, store the zone name in the solver and build the
client. -/
def readConfig {σ : Type} (env : Env σ) (request : ChallengeRequest) (e : World σ) :
    Except Error (Client σ) × World σ :=
  match decodeConfig env request with
  | .error err => (.error err, e)
  | .ok config =>
    match resolveSecretRef env config.ApiKeySecretRef request with
    | .error err => (.error err, e)
    | .ok apiKey =>
      match resolveSecretRef env config.SecretKeySecretRef request with
      | .error err => (.error err, e)
      | .ok secretKey =>
        match resolveSecretRef env config.ZoneNameSecretRef request with
        | .error err => (.error err, e)
        | .ok zoneName =>
          (.ok (env.New secretKey apiKey), { e with ZoneName := zoneName })

/-- Line 86, `entity := strings.TrimSuffix(ch.ResolvedFQDN, "."+ch.ResolvedZone)`:
the name the record is created under. -/
def entity (ch : ChallengeRequest) : String :=
  TrimSuffix ch.ResolvedFQDN ("." ++ ch.ResolvedZone)

/-- Lines 87 and 125, `name := strings.TrimSuffix(ch.ResolvedFQDN, ".")`: the name the
retrieved records are compared with. -/
def name (ch : ChallengeRequest) : String :=
  TrimSuffix ch.ResolvedFQDN "."

/-- The condition of the scan in `Present` and in `CleanUp`:
`record.Type_ == "TXT" && record.Name == name && record.Content == ch.Key`. -/
def isMatch (ch : ChallengeRequest) (record : Record) : Bool :=
  record.Type_ == "TXT" && record.Name == name ch && record.Content == ch.Key

/-- `PorkbunSolver.Present`. The `for` loop returns `nil` at the first record that
satisfies the condition; when it ends without one, the record is created. -/
def Present {σ : Type} (env : Env σ) (ch : ChallengeRequest) (e : World σ) :
    Option Error × World σ :=
  match readConfig env ch e with
  | (.error err, e) => (some (.initializationError err), e)
  | (.ok client, e) =>
    match World.RetrieveRecords client e.ZoneName e with
    | (.error err, e) => (some (.retrieveRecordsError err), e)
    | (.ok records, e) =>
      match records.find? (isMatch ch) with
      | some _ => (none, e)
      | none =>
        match World.CreateRecord client e.ZoneName
            { ID := "", Name := entity ch, Type_ := "TXT", Content := ch.Key, TTL := "60" } e with
        | (.error err, e) => (some (.createRecordError err), e)
        | (.ok _, e) => (none, e)

/-- `PorkbunSolver.CleanUp`. The `for` loop handles the first record that satisfies the
condition and returns: a malformed identifier is an error, otherwise the record is
deleted by its identifier; when the loop ends without a match the result is `nil`. -/
def CleanUp {σ : Type} (env : Env σ) (ch : ChallengeRequest) (e : World σ) :
    Option Error × World σ :=
  match readConfig env ch e with
  | (.error err, e) => (some (.initializationError err), e)
  | (.ok client, e) =>
    match World.RetrieveRecords client e.ZoneName e with
    | (.error err, e) => (some (.retrieveRecordsError err), e)
    | (.ok records, e) =>
      match records.find? (isMatch ch) with
      | some record =>
        match ParseInt record.ID 10 32 with
        | (_, some err) => (some (.malformedIDError err), e)
        | (id, none) =>
          match World.DeleteRecord client e.ZoneName id e with
          | (some err, e) => (some (.deleteRecordError err), e)
          | (none, e) => (none, e)
      | none => (none, e)

/-- The record `Present` passes to `CreateRecord`. -/
def newRecord (ch : ChallengeRequest) : Record :=
  { ID := "", Name := entity ch, Type_ := "TXT", Content := ch.Key, TTL := "60" }

/-- The calls issued on the client between the state `e` and the later state `e1`. -/
def issued {σ : Type} (e e1 : World σ) : List Call :=
  e1.calls.drop e.calls.length

/-! ## Decimal numerals -/

/-- Test `'0' <= c && c <= '9'`. -/
def isDecimalDigit (c : Char) : Bool :=
  decide ('0'.toNat ≤ c.toNat ∧ c.toNat ≤ '9'.toNat)

/-- A non-empty list of decimal digits. -/
def isDecimal (ds : List Char) : Bool :=
  !ds.isEmpty && ds.all isDecimalDigit

/-- The number a list of decimal digits denotes. -/
def decimalValue (ds : List Char) : Nat :=
  ds.foldl (fun a c => 10 * a + (c.toNat - '0'.toNat)) 0

/-- The integer a list of decimal digits denotes after the optional sign `sign` (no
sign, `+` or `-`). -/
def numeralValue (sign ds : List Char) : Int :=
  if sign = ['-'] then -(decimalValue ds : Int) else decimalValue ds

/-- The sign an identifier starts with: `+`, `-` or none. -/
def signOf (s : String) : List Char :=
  if s.data.head? = some '+' then ['+']
  else if s.data.head? = some '-' then ['-']
  else []

/-- The characters of an identifier after its sign. -/
def digitsOf (s : String) : List Char :=
  if s.data.head? = some '+' ∨ s.data.head? = some '-' then s.data.tail else s.data

/-- A numeric identifier: a non-empty list of decimal digits after an optional sign. -/
def isNumeric (s : String) : Bool :=
  isDecimal (digitsOf s)

/-- The integer a numeric identifier denotes, of any size. -/
def identifierValue (s : String) : Option Int :=
  if isNumeric s then some (numeralValue (signOf s) (digitsOf s)) else none

/-! ## A model of the remote zone

The claims about the contents of the zone are stated over this model of the provider: the
zone is the list of its records, and a record created under a relative name is listed
under `<relative name>.<domain>`. -/

/-- The integer by which the provider identifies a record: the one its identifier
denotes, if it is numeric. -/
def recordID (r : Record) : Option Int :=
  identifierValue r.ID

/-- An identifier not yet in use in the zone: one more than the largest one in use. -/
def freshID (zone : List Record) : Int :=
  (zone.filterMap recordID).foldl max 0 + 1

/-- The remote DNS provider as the claims about the contents of the zone take it (it is
an external service, reached through the external Porkbun client library). The state is
the list of the records of the zone. `RetrieveRecords` returns the list; `CreateRecord`
adds the record under a fresh identifier and under the name `<relative name>.<domain>`;
`DeleteRecord` removes the records whose identifier denotes the given integer and fails
when there is none. -/
def zoneClient : Client (List Record) where
  RetrieveRecords := fun _ zone => (.ok zone, zone)
  CreateRecord := fun domain record zone =>
    (.ok (freshID zone),
      zone ++ [{ record with ID := toString (freshID zone),
                             Name := record.Name ++ "." ++ domain }])
  DeleteRecord := fun _ id zone =>
    if zone.any (fun r => recordID r == some id) then
      (none, zone.filter (fun r => !(recordID r == some id)))
    else (some "Invalid record ID.", zone)

/-- An environment whose Porkbun client is the zone model, for any credentials. -/
def zoneEnv (Unmarshal : String → Except String Config)
    (GetSecret : String → String → Except String Secret) : Env (List Record) where
  Unmarshal := Unmarshal
  GetSecret := GetSecret
  New := fun _ _ => zoneClient

/-! ## Concrete environments for the examples -/

/-- The configuration blob of the examples: the JSON object with the fields
`apiKeySecretRef`, `secretKeySecretRef` and `zoneNameSecretRef`, each the name
`porkbun-secret` and a key, `api-key`, `secret-key` and `zone`. -/
def exampleBlob : String :=
  "\x7b\"apiKeySecretRef\":\x7b\"name\":\"porkbun-secret\",\"key\":\"api-key\"\x7d," ++
  "\"secretKeySecretRef\":\x7b\"name\":\"porkbun-secret\",\"key\":\"secret-key\"\x7d," ++
  "\"zoneNameSecretRef\":\x7b\"name\":\"porkbun-secret\",\"key\":\"zone\"\x7d\x7d"

/-- The JSON decoder on the blobs of the examples: `exampleBlob` decodes to its three
references, the empty object leaves the zero `Config`, and any other text, none of which
occurs in the examples, is reported as malformed. -/
def exampleUnmarshal : String → Except String Config :=
  fun raw =>
    if raw = exampleBlob then
      .ok ⟨⟨"porkbun-secret", "api-key"⟩, ⟨"porkbun-secret", "secret-key"⟩,
        ⟨"porkbun-secret", "zone"⟩⟩
    else if raw = "\x7b\x7d" then .ok ⟨⟨"", ""⟩, ⟨"", ""⟩, ⟨"", ""⟩⟩
    else .error "invalid character looking for beginning of value"

/-- A secret store for the examples: the single secret `porkbun-secret` in the namespace
`cert-manager`, holding an API key, a secret key and the zone name `example.com`. -/
def exampleGetSecret : String → String → Except String Secret :=
  fun ns secretName =>
    if ns = "cert-manager" ∧ secretName = "porkbun-secret" then
      .ok ⟨fun key =>
        if key = "api-key" then some "pk1_key"
        else if key = "secret-key" then some "sk1_secret"
        else if key = "zone" then some "example.com"
        else none⟩
    else .error "secrets not found"

/-- The environment of the examples over the zone model. -/
def exampleEnv : Env (List Record) := zoneEnv exampleUnmarshal exampleGetSecret

/-- The request of the end-to-end scenario. -/
def exampleRequest : ChallengeRequest :=
  { ResolvedFQDN := "_acme-challenge.foo.example.com."
    ResolvedZone := "example.com."
    Key := "abc123"
    ResourceNamespace := "cert-manager"
    Config := some exampleBlob }

/-- The records of a zone that have type `TXT`, name equal to the FQDN of the request
without its trailing dot and content equal to the challenge key. -/
def matching (ch : ChallengeRequest) (zone : List Record) : List Record :=
  zone.filter (fun r =>
    decide (r.Type_ = "TXT" ∧ r.Name = TrimSuffix ch.ResolvedFQDN "." ∧ r.Content = ch.Key))

/-- A request for a name in a delegated subzone: the resolved zone is
`foo.example.com.` while the zone held at the provider is `example.com`. -/
def delegatedRequest : ChallengeRequest :=
  { ResolvedFQDN := "_acme-challenge.foo.example.com."
    ResolvedZone := "foo.example.com."
    Key := "abc123"
    ResourceNamespace := "cert-manager"
    Config := some exampleBlob }

/-- The challenge record of `exampleRequest` as the provider lists it, under the
identifier `id`. -/
def challengeRecord (id : String) : Record :=
  { ID := id, Name := "_acme-challenge.foo.example.com", Type_ := "TXT",
    Content := "abc123", TTL := "60" }

/-- An address record of the zone, unrelated to any challenge. -/
def addressRecord : Record :=
  { ID := "3", Name := "www.example.com", Type_ := "A", Content := "192.0.2.1", TTL := "600" }

/-- The request of the end-to-end scenario, sent from a namespace that does not hold the
secret. -/
def strayRequest : ChallengeRequest :=
  { exampleRequest with ResourceNamespace := "default" }

/-- A fresh solver facing the zone `zone`, before any call. -/
def startWorld (zone : List Record) : World (List Record) :=
  { ZoneName := "", remote := zone, calls := [] }

/-! ## Lemmas on the library functions -/

theorem TrimSuffix_append (a b : String) : TrimSuffix (a ++ b) b = a := by
  simp [TrimSuffix, HasSuffix, String.data_append]

theorem isMatch_iff (ch : ChallengeRequest) (r : Record) :
    isMatch ch r = true ↔
      r.Type_ = "TXT" ∧ r.Name = TrimSuffix ch.ResolvedFQDN "." ∧ r.Content = ch.Key := by
  simp [isMatch, name, and_assoc]

/-! ## Lemmas on `readConfig` -/

theorem readConfig_ok {σ : Type} {env : Env σ} {ch : ChallengeRequest} {e e1 : World σ}
    {client : Client σ} (h : readConfig env ch e = (.ok client, e1)) :
    e1 = { e with ZoneName := e1.ZoneName } := by
  unfold readConfig at h
  repeat' split at h
  all_goals simp_all
  rw [← h.2]

theorem readConfig_error {σ : Type} {env : Env σ} {ch : ChallengeRequest} {e e1 : World σ}
    {err : Error} (h : readConfig env ch e = (.error err, e1)) : e1 = e := by
  unfold readConfig at h
  repeat' split at h
  all_goals simp_all

theorem readConfig_irrel {σ : Type} {env : Env σ} {ch : ChallengeRequest} {e : World σ}
    {client : Client σ} {zn : String}
    (h : readConfig env ch e = (.ok client, { e with ZoneName := zn })) (e1 : World σ) :
    readConfig env ch e1 = (.ok client, { e1 with ZoneName := zn }) := by
  unfold readConfig at h ⊢
  repeat' split at h
  all_goals simp_all

/-! ## The two operations after a successful configuration and retrieval -/

theorem issued_append {σ : Type} (e e1 : World σ) (l : List Call)
    (h : e1.calls = e.calls ++ l) : issued e e1 = l := by
  simp [issued, h]

theorem Present_found {σ : Type} {env : Env σ} {ch : ChallengeRequest} {e : World σ}
    {client : Client σ} {zn : String} {records : List Record} {s : σ} {r : Record}
    (hcfg : readConfig env ch e = (.ok client, { e with ZoneName := zn }))
    (hret : client.RetrieveRecords zn e.remote = (.ok records, s))
    (hfind : records.find? (isMatch ch) = some r) :
    Present env ch e = (none, ⟨zn, s, e.calls ++ [Call.RetrieveRecords zn]⟩) := by
  simp [Present, hcfg, World.RetrieveRecords, hret, hfind]

theorem Present_not_found {σ : Type} {env : Env σ} {ch : ChallengeRequest} {e : World σ}
    {client : Client σ} {zn : String} {records : List Record} {s : σ}
    (hcfg : readConfig env ch e = (.ok client, { e with ZoneName := zn }))
    (hret : client.RetrieveRecords zn e.remote = (.ok records, s))
    (hfind : records.find? (isMatch ch) = none) :
    Present env ch e =
      ((match (client.CreateRecord zn (newRecord ch) s).1 with
        | .error err => some (.createRecordError err)
        | .ok _ => none),
       ⟨zn, (client.CreateRecord zn (newRecord ch) s).2,
        e.calls ++ [Call.RetrieveRecords zn, Call.CreateRecord zn (newRecord ch)]⟩) := by
  simp only [Present, hcfg, World.RetrieveRecords, hret, hfind, World.CreateRecord, newRecord]
  cases h : (client.CreateRecord zn
    { ID := "", Name := entity ch, Type_ := "TXT", Content := ch.Key, TTL := "60" } s).1 <;>
    simp [h]

theorem CleanUp_not_found {σ : Type} {env : Env σ} {ch : ChallengeRequest} {e : World σ}
    {client : Client σ} {zn : String} {records : List Record} {s : σ}
    (hcfg : readConfig env ch e = (.ok client, { e with ZoneName := zn }))
    (hret : client.RetrieveRecords zn e.remote = (.ok records, s))
    (hfind : records.find? (isMatch ch) = none) :
    CleanUp env ch e = (none, ⟨zn, s, e.calls ++ [Call.RetrieveRecords zn]⟩) := by
  simp [CleanUp, hcfg, World.RetrieveRecords, hret, hfind]

theorem CleanUp_malformed {σ : Type} {env : Env σ} {ch : ChallengeRequest} {e : World σ}
    {client : Client σ} {zn : String} {records : List Record} {s : σ} {r : Record}
    {v : Int} {err : NumError}
    (hcfg : readConfig env ch e = (.ok client, { e with ZoneName := zn }))
    (hret : client.RetrieveRecords zn e.remote = (.ok records, s))
    (hfind : records.find? (isMatch ch) = some r)
    (hparse : ParseInt r.ID 10 32 = (v, some err)) :
    CleanUp env ch e =
      (some (.malformedIDError err), ⟨zn, s, e.calls ++ [Call.RetrieveRecords zn]⟩) := by
  simp [CleanUp, hcfg, World.RetrieveRecords, hret, hfind, hparse]

theorem CleanUp_delete {σ : Type} {env : Env σ} {ch : ChallengeRequest} {e : World σ}
    {client : Client σ} {zn : String} {records : List Record} {s : σ} {r : Record}
    {id : Int}
    (hcfg : readConfig env ch e = (.ok client, { e with ZoneName := zn }))
    (hret : client.RetrieveRecords zn e.remote = (.ok records, s))
    (hfind : records.find? (isMatch ch) = some r)
    (hparse : ParseInt r.ID 10 32 = (id, none)) :
    CleanUp env ch e =
      ((match (client.DeleteRecord zn id s).1 with
        | some err => some (.deleteRecordError err)
        | none => none),
       ⟨zn, (client.DeleteRecord zn id s).2,
        e.calls ++ [Call.RetrieveRecords zn, Call.DeleteRecord zn id]⟩) := by
  simp only [CleanUp, hcfg, World.RetrieveRecords, hret, hfind, hparse, World.DeleteRecord]
  cases h : (client.DeleteRecord zn id s).1 <;> simp [h]

/-- The first record of `pre ++ r :: post` that satisfies the condition is `r` when no
record of `pre` satisfies it and `r` does. -/
theorem find_first (ch : ChallengeRequest) (pre post : List Record) (r : Record)
    (hpre : ∀ x ∈ pre, isMatch ch x = false) (hr : isMatch ch r = true) :
    (pre ++ r :: post).find? (isMatch ch) = some r := by
  induction pre with
  | nil => simp [hr]
  | cons x xs ih =>
    have hx : isMatch ch x = false := hpre x (by simp)
    simp only [List.cons_append, List.find?_cons, hx]
    exact ih (fun y hy => hpre y (by simp [hy]))

theorem find_none (ch : ChallengeRequest) (records : List Record)
    (h : ¬ ∃ r ∈ records, r.Type_ = "TXT" ∧ r.Name = TrimSuffix ch.ResolvedFQDN "." ∧
      r.Content = ch.Key) :
    records.find? (isMatch ch) = none := by
  rw [List.find?_eq_none]
  intro x hx hm
  exact h ⟨x, hx, (isMatch_iff ch x).1 hm⟩

/-! ## Lemmas on `strconv.ParseInt` -/

theorem digitOf_of_digit (c : Char) (h : isDecimalDigit c = true) :
    digitOf c = some (c.toNat - 48) ∧ c.toNat - 48 < 10 := by
  have h0 : '0'.toNat = 48 := rfl
  have h9 : '9'.toNat = 57 := rfl
  simp only [isDecimalDigit, h0, h9, decide_eq_true_eq] at h
  simp only [digitOf, h0, h9]
  constructor
  · rw [if_pos h]
  · omega

theorem digitOf_of_not_digit (c : Char) (h : isDecimalDigit c = false) :
    digitOf c = none ∨ ∃ d, digitOf c = some d ∧ 10 ≤ d := by
  have h0 : '0'.toNat = 48 := rfl
  have h9 : '9'.toNat = 57 := rfl
  simp only [isDecimalDigit, h0, h9, decide_eq_false_iff_not] at h
  simp only [digitOf, h0, h9]
  rw [if_neg h]
  by_cases h2 : 'a'.toNat ≤ lower c ∧ lower c ≤ 'z'.toNat
  · right
    rw [if_pos h2]
    exact ⟨_, rfl, by omega⟩
  · left
    rw [if_neg h2]

theorem foldl_digits_ge (cs : List Char) (n : Nat) :
    n ≤ cs.foldl (fun a c => 10 * a + (c.toNat - '0'.toNat)) n := by
  induction cs generalizing n with
  | nil => simp
  | cons c cs ih =>
    simp only [List.foldl_cons]
    exact le_trans (by omega) (ih _)

theorem parseUintLoop_digits (s0 : String) (cs : List Char) (n : Nat)
    (hn : n ≤ 4294967295) (hcs : cs.all isDecimalDigit = true) :
    parseUintLoop s0 10 4294967295 1844674407370955162 cs n =
      if cs.foldl (fun a c => 10 * a + (c.toNat - '0'.toNat)) n ≤ 4294967295 then
        (cs.foldl (fun a c => 10 * a + (c.toNat - '0'.toNat)) n, none)
      else (4294967295, some ⟨"ParseUint", s0, .ErrRange⟩) := by
  induction cs generalizing n with
  | nil => simp [parseUintLoop, hn]
  | cons c cs ih =>
    simp only [List.all_cons, Bool.and_eq_true] at hcs
    obtain ⟨hd, hlt⟩ := digitOf_of_digit c hcs.1
    have h0 : '0'.toNat = 48 := rfl
    have e1 : n * 10 % 2 ^ 64 = n * 10 := Nat.mod_eq_of_lt (by norm_num; omega)
    have e2 : (n * 10 + (c.toNat - 48)) % 2 ^ 64 = n * 10 + (c.toNat - 48) :=
      Nat.mod_eq_of_lt (by norm_num; omega)
    simp only [parseUintLoop, hd, List.foldl_cons, h0, e1, e2]
    rw [if_neg (by omega), if_neg (by omega)]
    by_cases hbig : n * 10 + (c.toNat - 48) > 4294967295
    · rw [if_pos (Or.inr hbig)]
      have := foldl_digits_ge cs (10 * n + (c.toNat - 48))
      rw [h0] at this
      rw [if_neg (by omega)]
    · rw [if_neg (by omega)]
      have := ih (n * 10 + (c.toNat - 48)) (by omega) hcs.2
      rw [h0] at this
      rw [this, Nat.mul_comm n 10]

theorem parseUintLoop_not_digits (s0 : String) (cs : List Char) (n : Nat)
    (hcs : cs.all isDecimalDigit = false) :
    parseUintLoop s0 10 4294967295 1844674407370955162 cs n =
        (0, some ⟨"ParseUint", s0, .ErrSyntax⟩) ∨
      parseUintLoop s0 10 4294967295 1844674407370955162 cs n =
        (4294967295, some ⟨"ParseUint", s0, .ErrRange⟩) := by
  induction cs generalizing n with
  | nil => simp at hcs
  | cons c cs ih =>
    cases hc : isDecimalDigit c with
    | false =>
      rcases digitOf_of_not_digit c hc with h | ⟨d, h, hd⟩
      · left
        simp [parseUintLoop, h]
      · left
        simp [parseUintLoop, h, hd]
    | true =>
      simp only [List.all_cons, hc, Bool.true_and] at hcs
      obtain ⟨hd, hlt⟩ := digitOf_of_digit c hc
      simp only [parseUintLoop, hd]
      rw [if_neg (by omega)]
      split
      · right; rfl
      · split
        · right; rfl
        · exact ih _ hcs

theorem ParseUint_eq_loop (ds : List Char) (h : ds ≠ []) :
    ParseUint ⟨ds⟩ 10 32 =
      parseUintLoop ⟨ds⟩ 10 4294967295 1844674407370955162 ds 0 := by
  have hne : (⟨ds⟩ : String) ≠ "" := by
    intro hh
    apply h
    have := congrArg String.data hh
    simpa using this
  simp only [ParseUint, if_neg hne]
  norm_num

theorem ParseUint_nil : ParseUint ⟨[]⟩ 10 32 = (0, some ⟨"ParseUint", "", .ErrSyntax⟩) := by
  decide

/-- The outcome of `ParseUint` at base 10 and 32 bits on a list of characters. -/
theorem ParseUint_cases (ds : List Char) :
    (isDecimal ds = true ∧ decimalValue ds ≤ 4294967295 ∧
        ParseUint ⟨ds⟩ 10 32 = (decimalValue ds, none)) ∨
      (isDecimal ds = true ∧ 4294967295 < decimalValue ds ∧
        ParseUint ⟨ds⟩ 10 32 = (4294967295, some ⟨"ParseUint", ⟨ds⟩, .ErrRange⟩)) ∨
      (isDecimal ds = false ∧
        (ParseUint ⟨ds⟩ 10 32 = (0, some ⟨"ParseUint", ⟨ds⟩, .ErrSyntax⟩) ∨
         ParseUint ⟨ds⟩ 10 32 = (4294967295, some ⟨"ParseUint", ⟨ds⟩, .ErrRange⟩))) := by
  by_cases hnil : ds = []
  · subst hnil
    right; right
    exact ⟨by decide, Or.inl (by decide)⟩
  · rw [ParseUint_eq_loop ds hnil]
    cases hall : ds.all isDecimalDigit with
    | true =>
      have hdec : isDecimal ds = true := by
        cases ds with
        | nil => exact absurd rfl hnil
        | cons c cs => simpa [isDecimal] using hall
      have hloop : parseUintLoop ⟨ds⟩ 10 4294967295 1844674407370955162 ds 0 =
          if decimalValue ds ≤ 4294967295 then (decimalValue ds, none)
          else (4294967295, some ⟨"ParseUint", ⟨ds⟩, .ErrRange⟩) :=
        parseUintLoop_digits _ ds 0 (by omega) hall
      rw [hloop]
      by_cases hle : decimalValue ds ≤ 4294967295
      · left
        exact ⟨hdec, hle, by rw [if_pos hle]⟩
      · right; left
        exact ⟨hdec, by omega, by rw [if_neg hle]⟩
    | false =>
      right; right
      exact ⟨by simp [isDecimal, hall], parseUintLoop_not_digits _ ds 0 hall⟩

theorem head_of_decimal (ds : List Char) (h : isDecimal ds = true) :
    ds ≠ [] ∧ ds.head? ≠ some '+' ∧ ds.head? ≠ some '-' := by
  cases ds with
  | nil => simp [isDecimal] at h
  | cons c cs =>
    simp only [isDecimal, List.isEmpty_cons, Bool.not_false, List.all_cons, Bool.true_and,
      Bool.and_eq_true] at h
    have h0 : '0'.toNat = 48 := rfl
    have h9 : '9'.toNat = 57 := rfl
    have hc := h.1
    simp only [isDecimalDigit, h0, h9, decide_eq_true_eq] at hc
    refine ⟨by simp, ?_, ?_⟩
    · intro hh
      simp only [List.head?_cons, Option.some.injEq] at hh
      subst hh
      have : '+'.toNat = 43 := rfl
      omega
    · intro hh
      simp only [List.head?_cons, Option.some.injEq] at hh
      subst hh
      have : '-'.toNat = 45 := rfl
      omega

theorem mk_ne_empty (cs : List Char) (h : cs ≠ []) : (⟨cs⟩ : String) ≠ "" := by
  intro hh
  apply h
  have := congrArg String.data hh
  simpa using this

theorem toInt64_small (n : Nat) (h : n ≤ 4294967295) : toInt64 (n : Int) = n := by
  unfold toInt64
  omega

theorem toInt64_neg_small (n : Nat) (h : n ≤ 4294967295) : toInt64 (-(n : Int)) = -n := by
  unfold toInt64
  omega

theorem ParseInt_pow : (2 ^ ((if 32 = 0 then 64 else 32) - 1) % 2 ^ 64 : Nat) = 2147483648 := by
  decide

theorem ParseUint_small (ds : List Char) (hds : isDecimal ds = true)
    (h : decimalValue ds ≤ 4294967295) : ParseUint ⟨ds⟩ 10 32 = (decimalValue ds, none) := by
  rcases ParseUint_cases ds with ⟨_, _, h⟩ | ⟨_, hbig, _⟩ | ⟨hno, _⟩
  · exact h
  · omega
  · rw [hds] at hno
    exact absurd hno (by simp)

/-- A signed decimal numeral whose value fits in 32 bits is parsed to its value. -/
theorem ParseInt_accept (sign ds : List Char)
    (hsign : sign = [] ∨ sign = ['+'] ∨ sign = ['-']) (hds : isDecimal ds = true)
    (hlo : -2147483648 ≤ (if sign = ['-'] then -(decimalValue ds : Int) else decimalValue ds))
    (hhi : (if sign = ['-'] then -(decimalValue ds : Int) else decimalValue ds) ≤ 2147483647) :
    ParseInt ⟨sign ++ ds⟩ 10 32 =
      ((if sign = ['-'] then -(decimalValue ds : Int) else decimalValue ds), none) := by
  obtain ⟨hne, hp, hm⟩ := head_of_decimal ds hds
  rcases hsign with rfl | rfl | rfl
  · simp at hlo hhi
    have hU := ParseUint_small ds hds (by omega)
    have hs : (⟨[] ++ ds⟩ : String) ≠ "" := mk_ne_empty _ (by simpa using hne)
    simp only [ParseInt, if_neg hs]
    have hp1 : (ds.head? == some '+') = false := by simpa using hp
    have hm1 : (ds.head? == some '-') = false := by simpa using hm
    simp [hp1, hm1, hU, ParseInt_pow, Option.filter]
    rw [if_neg (by omega), toInt64_small _ (by omega)]
  · simp at hlo hhi
    have hU := ParseUint_small ds hds (by omega)
    have hs : (⟨['+'] ++ ds⟩ : String) ≠ "" := mk_ne_empty _ (by simp)
    simp only [ParseInt, if_neg hs]
    simp [hU, ParseInt_pow]
    rw [if_neg (by omega), toInt64_small _ (by omega)]
  · simp at hlo hhi
    have hU := ParseUint_small ds hds (by omega)
    have hs : (⟨['-'] ++ ds⟩ : String) ≠ "" := mk_ne_empty _ (by simp)
    simp only [ParseInt, if_neg hs]
    simp [hU, ParseInt_pow]
    rw [if_neg (by omega), toInt64_small _ (by omega), toInt64_neg_small _ (by omega)]

/-- A signed decimal numeral whose value does not fit in 32 bits is rejected. -/
theorem ParseInt_reject_range (sign ds : List Char)
    (hsign : sign = [] ∨ sign = ['+'] ∨ sign = ['-']) (hds : isDecimal ds = true)
    (hout : (if sign = ['-'] then -(decimalValue ds : Int) else decimalValue ds) < -2147483648 ∨
      2147483647 < (if sign = ['-'] then -(decimalValue ds : Int) else decimalValue ds)) :
    ∃ v err, ParseInt ⟨sign ++ ds⟩ 10 32 = (v, some err) := by
  obtain ⟨hne, hp, hm⟩ := head_of_decimal ds hds
  have hU : (decimalValue ds ≤ 4294967295 ∧ ParseUint ⟨ds⟩ 10 32 = (decimalValue ds, none)) ∨
      ParseUint ⟨ds⟩ 10 32 = (4294967295, some ⟨"ParseUint", ⟨ds⟩, .ErrRange⟩) := by
    rcases ParseUint_cases ds with ⟨_, h1, h2⟩ | ⟨_, _, h⟩ | ⟨hno, _⟩
    · exact Or.inl ⟨h1, h2⟩
    · exact Or.inr h
    · rw [hds] at hno
      exact absurd hno (by simp)
  rcases hsign with rfl | rfl | rfl
  · simp at hout
    have hs : (⟨[] ++ ds⟩ : String) ≠ "" := mk_ne_empty _ (by simpa using hne)
    simp only [ParseInt, if_neg hs]
    have hp1 : (ds.head? == some '+') = false := by simpa using hp
    have hm1 : (ds.head? == some '-') = false := by simpa using hm
    rcases hU with ⟨_, hU⟩ | hU
    · simp [hp1, hm1, hU, ParseInt_pow, Option.filter]
      rw [if_pos (by omega)]
      exact ⟨_, _, rfl⟩
    · simp [hp1, hm1, hU, ParseInt_pow, Option.filter]
  · simp at hout
    have hs : (⟨['+'] ++ ds⟩ : String) ≠ "" := mk_ne_empty _ (by simp)
    simp only [ParseInt, if_neg hs]
    rcases hU with ⟨_, hU⟩ | hU
    · simp [hU, ParseInt_pow]
      rw [if_pos (by omega)]
      exact ⟨_, _, rfl⟩
    · simp [hU, Option.filter, ParseInt_pow]
  · simp at hout
    have hs : (⟨['-'] ++ ds⟩ : String) ≠ "" := mk_ne_empty _ (by simp)
    simp only [ParseInt, if_neg hs]
    rcases hU with ⟨_, hU⟩ | hU
    · simp [hU, ParseInt_pow]
      rw [if_pos (by omega)]
      exact ⟨_, _, rfl⟩
    · simp [hU, Option.filter, ParseInt_pow]

theorem sign_digits (s : String) :
    s = ⟨signOf s ++ digitsOf s⟩ ∧
      (signOf s = [] ∨ signOf s = ['+'] ∨ signOf s = ['-']) := by
  obtain ⟨cs⟩ := s
  cases cs with
  | nil => simp [signOf, digitsOf]
  | cons c ds =>
    by_cases hp : c = '+'
    · subst hp
      simp [signOf, digitsOf]
    · by_cases hm : c = '-'
      · subst hm
        simp [signOf, digitsOf]
      · simp [signOf, digitsOf, hp, hm]

/-- An identifier that is not a signed decimal numeral is rejected. -/
theorem ParseInt_reject_nonnumeric (s : String) (h : isNumeric s = false) :
    ∃ v err, ParseInt s 10 32 = (v, some err) := by
  obtain ⟨cs⟩ := s
  have hU : ∀ ds : List Char, isDecimal ds = false →
      ParseUint ⟨ds⟩ 10 32 = (0, some ⟨"ParseUint", ⟨ds⟩, .ErrSyntax⟩) ∨
      ParseUint ⟨ds⟩ 10 32 = (4294967295, some ⟨"ParseUint", ⟨ds⟩, .ErrRange⟩) := by
    intro ds hds
    rcases ParseUint_cases ds with ⟨h1, _⟩ | ⟨h1, _⟩ | ⟨_, h2⟩
    · rw [hds] at h1; exact absurd h1 (by simp)
    · rw [hds] at h1; exact absurd h1 (by simp)
    · exact h2
  cases cs with
  | nil => exact ⟨0, ⟨"ParseInt", "", .ErrSyntax⟩, by decide⟩
  | cons c ds =>
    have hs : (⟨c :: ds⟩ : String) ≠ "" := mk_ne_empty _ (by simp)
    simp only [isNumeric, digitsOf, List.head?_cons, Option.some.injEq, List.tail_cons] at h
    simp only [ParseInt, if_neg hs]
    by_cases hp : c = '+'
    · subst hp
      simp only [true_or, if_true] at h
      rcases hU ds h with hU | hU <;> simp [hU, Option.filter, ParseInt_pow]
    · by_cases hm : c = '-'
      · subst hm
        simp only [or_true, if_true] at h
        rcases hU ds h with hU | hU <;> simp [hU, Option.filter, ParseInt_pow]
      · simp only [hp, hm, or_self, if_false] at h
        rcases hU (c :: ds) h with hU | hU <;> simp [hp, hm, hU, Option.filter, ParseInt_pow]

/-- What `ParseInt` accepts at base 10 and 32 bits is a signed decimal numeral, and the
value returned is the integer it denotes, which lies in the 32-bit range. -/
theorem ParseInt_sound (s : String) (id : Int) (h : ParseInt s 10 32 = (id, none)) :
    identifierValue s = some id ∧ -2147483648 ≤ id ∧ id ≤ 2147483647 := by
  cases hnum : isNumeric s with
  | false =>
    obtain ⟨v, err, h1⟩ := ParseInt_reject_nonnumeric s hnum
    rw [h] at h1
    simp at h1
  | true =>
    obtain ⟨hs, hsign⟩ := sign_digits s
    have hds : isDecimal (digitsOf s) = true := hnum
    by_cases hout : numeralValue (signOf s) (digitsOf s) < -2147483648 ∨
        2147483647 < numeralValue (signOf s) (digitsOf s)
    · obtain ⟨v, err, h1⟩ := ParseInt_reject_range (signOf s) (digitsOf s) hsign hds hout
      rw [← hs, h] at h1
      simp at h1
    · have hin : -2147483648 ≤ numeralValue (signOf s) (digitsOf s) ∧
          numeralValue (signOf s) (digitsOf s) ≤ 2147483647 := by omega
      have h1 := ParseInt_accept (signOf s) (digitsOf s) hsign hds hin.1 hin.2
      rw [← hs, h] at h1
      simp only [Prod.mk.injEq, and_true] at h1
      have h2 : id = numeralValue (signOf s) (digitsOf s) := h1
      rw [h2]
      exact ⟨by simp [identifierValue, hnum], hin⟩

/-- A signed decimal numeral whose value lies in the 32-bit range is accepted by
`ParseInt` at base 10 and 32 bits, with that value. -/
theorem ParseInt_complete (s : String) (id : Int) (h : identifierValue s = some id)
    (hlo : -2147483648 ≤ id) (hhi : id ≤ 2147483647) : ParseInt s 10 32 = (id, none) := by
  unfold identifierValue at h
  cases hnum : isNumeric s with
  | false => simp [hnum] at h
  | true =>
    simp only [hnum, if_true, Option.some.injEq] at h
    obtain ⟨hs, hsign⟩ := sign_digits s
    have hds : isDecimal (digitsOf s) = true := hnum
    have hlo1 : -2147483648 ≤ numeralValue (signOf s) (digitsOf s) := by rw [h]; exact hlo
    have hhi1 : numeralValue (signOf s) (digitsOf s) ≤ 2147483647 := by rw [h]; exact hhi
    have h1 := ParseInt_accept (signOf s) (digitsOf s) hsign hds hlo1 hhi1
    rw [← hs] at h1
    rw [h1]
    exact congrArg (fun v => (v, (none : Option NumError))) h

/-! ## The calls an operation can issue -/

theorem readConfig_cases {σ : Type} (env : Env σ) (ch : ChallengeRequest) (e : World σ) :
    (∃ err, readConfig env ch e = (.error err, e)) ∨
      ∃ client zn, readConfig env ch e = (.ok client, { e with ZoneName := zn }) := by
  unfold readConfig
  repeat' split
  all_goals simp

theorem Present_issued_cases {σ : Type} (env : Env σ) (ch : ChallengeRequest)
    (e : World σ) :
    issued e (Present env ch e).2 = [] ∨
      ∃ zn, issued e (Present env ch e).2 = [Call.RetrieveRecords zn] ∨
        issued e (Present env ch e).2 =
          [Call.RetrieveRecords zn, Call.CreateRecord zn (newRecord ch)] := by
  rcases readConfig_cases env ch e with ⟨err, h⟩ | ⟨client, zn, h⟩
  · left
    simp [Present, h, issued]
  · right
    refine ⟨zn, ?_⟩
    cases hret : client.RetrieveRecords zn e.remote with
    | mk res s =>
      cases res with
      | error err =>
        left
        simp [Present, h, World.RetrieveRecords, hret, issued]
      | ok records =>
        cases hf : records.find? (isMatch ch) with
        | some r =>
          left
          rw [Present_found h hret hf]
          exact issued_append _ _ _ rfl
        | none =>
          right
          rw [Present_not_found h hret hf]
          exact issued_append _ _ _ rfl

theorem readConfig_fail {σ : Type} (env : Env σ) (ch : ChallengeRequest) (e : World σ)
    (cfg : Config) (hdec : decodeConfig env ch = .ok cfg)
    (h : (∃ err, resolveSecretRef env cfg.ApiKeySecretRef ch = .error err) ∨
      (∃ err, resolveSecretRef env cfg.SecretKeySecretRef ch = .error err) ∨
      (∃ err, resolveSecretRef env cfg.ZoneNameSecretRef ch = .error err)) :
    ∃ err, readConfig env ch e = (.error err, e) := by
  rcases readConfig_cases env ch e with h1 | ⟨client, zn, h1⟩
  · exact h1
  · exfalso
    unfold readConfig at h1
    rw [hdec] at h1
    simp only at h1
    repeat' split at h1
    all_goals simp_all

theorem resolveSecretRef_fail {σ : Type} (env : Env σ) (ch : ChallengeRequest)
    (sel : SecretKeySelector)
    (hfail : (∃ err, env.GetSecret ch.ResourceNamespace sel.Name = .error err) ∨
      (∃ secret, env.GetSecret ch.ResourceNamespace sel.Name = .ok secret ∧
        secret.Data sel.Key = none)) :
    ∃ err, resolveSecretRef env sel ch = .error err := by
  rcases hfail with ⟨err, h⟩ | ⟨secret, h, hk⟩
  · exact ⟨.getError ch.ResourceNamespace sel.Name err, by simp [resolveSecretRef, h]⟩
  · exact ⟨.noKeyError ch.ResourceNamespace sel.Name sel.Key, by
      simp [resolveSecretRef, h, hk]⟩

/-! ## Lemmas on the zone model -/

theorem zoneEnv_client {um : String → Except String Config}
    {gs : String → String → Except String Secret} {ch : ChallengeRequest}
    {e e1 : World (List Record)} {client : Client (List Record)}
    (h : readConfig (zoneEnv um gs) ch e = (.ok client, e1)) : client = zoneClient := by
  unfold readConfig at h
  repeat' split at h
  all_goals simp_all [zoneEnv]

theorem matching_eq_filter (ch : ChallengeRequest) (zone : List Record) :
    matching ch zone = zone.filter (isMatch ch) := by
  unfold matching
  congr 1
  funext r
  rw [Bool.eq_iff_iff]
  simp [isMatch_iff]

theorem matching_nil_iff (ch : ChallengeRequest) (zone : List Record) :
    matching ch zone = [] ↔
      ¬ ∃ r ∈ zone, r.Type_ = "TXT" ∧ r.Name = TrimSuffix ch.ResolvedFQDN "." ∧
        r.Content = ch.Key := by
  simp [matching, List.filter_eq_nil_iff]

/-! ## The properties of the solver -/

/-- C2: once the configuration is read and `RetrieveRecords` has returned a list of
records, `Present` issues `CreateRecord` if and only if no record of the list has all
three of type `TXT`, name equal to the FQDN with its trailing dot stripped and content
equal to the challenge key. When such a record exists `Present` returns no error after
the retrieval alone; when none exists it issues exactly one `CreateRecord`, whatever
records matching one or two of the fields the list holds. -/
theorem Present_creates_iff_no_match {σ : Type} (env : Env σ) (ch : ChallengeRequest)
    (e : World σ) (client : Client σ) (zn : String) (records : List Record) (s : σ)
    (hcfg : readConfig env ch e = (.ok client, { e with ZoneName := zn }))
    (hret : client.RetrieveRecords zn e.remote = (.ok records, s)) :
    ((∃ d rec, Call.CreateRecord d rec ∈ issued e (Present env ch e).2) ↔
      ¬ ∃ r ∈ records, r.Type_ = "TXT" ∧ r.Name = TrimSuffix ch.ResolvedFQDN "." ∧
        r.Content = ch.Key) ∧
    ((∃ r ∈ records, r.Type_ = "TXT" ∧ r.Name = TrimSuffix ch.ResolvedFQDN "." ∧
        r.Content = ch.Key) →
      (Present env ch e).1 = none ∧
      issued e (Present env ch e).2 = [Call.RetrieveRecords zn]) ∧
    ((¬ ∃ r ∈ records, r.Type_ = "TXT" ∧ r.Name = TrimSuffix ch.ResolvedFQDN "." ∧
        r.Content = ch.Key) →
      issued e (Present env ch e).2 =
        [Call.RetrieveRecords zn, Call.CreateRecord zn (newRecord ch)]) := by
  have hyes : (∃ r ∈ records, r.Type_ = "TXT" ∧ r.Name = TrimSuffix ch.ResolvedFQDN "." ∧
        r.Content = ch.Key) →
      (Present env ch e).1 = none ∧
      issued e (Present env ch e).2 = [Call.RetrieveRecords zn] := by
    rintro ⟨r, hr, hm⟩
    cases hf : records.find? (isMatch ch) with
    | none =>
      rw [List.find?_eq_none] at hf
      exact absurd ((isMatch_iff ch r).2 hm) (hf r hr)
    | some r1 =>
      rw [Present_found hcfg hret hf]
      exact ⟨rfl, issued_append _ _ _ rfl⟩
  have hno : (¬ ∃ r ∈ records, r.Type_ = "TXT" ∧ r.Name = TrimSuffix ch.ResolvedFQDN "." ∧
        r.Content = ch.Key) →
      issued e (Present env ch e).2 =
        [Call.RetrieveRecords zn, Call.CreateRecord zn (newRecord ch)] := by
    intro h
    rw [Present_not_found hcfg hret (find_none ch records h)]
    exact issued_append _ _ _ rfl
  refine ⟨⟨?_, ?_⟩, hyes, hno⟩
  · rintro ⟨d, rec, hmem⟩ hex
    rw [(hyes hex).2] at hmem
    simp at hmem
  · intro h
    rw [hno h]
    exact ⟨zn, newRecord ch, by simp⟩

/-- C5, as amended: when the first record of the retrieved list that matches (type
`TXT`, name, content) has an identifier that is a base-10 integer, optionally signed,
within the signed 32-bit range [-2147483648, 2147483647], `CleanUp` issues, after the
retrieval, exactly one `DeleteRecord`, whose argument is the integer value of that
identifier; no other call is made, whatever the records before and after it, later
matching duplicates included. -/
theorem CleanUp_deletes_first_match {σ : Type} (env : Env σ) (ch : ChallengeRequest)
    (e : World σ) (client : Client σ) (zn : String) (pre post : List Record) (r : Record)
    (id : Int) (s : σ)
    (hcfg : readConfig env ch e = (.ok client, { e with ZoneName := zn }))
    (hret : client.RetrieveRecords zn e.remote = (.ok (pre ++ r :: post), s))
    (hpre : ∀ x ∈ pre, ¬ (x.Type_ = "TXT" ∧ x.Name = TrimSuffix ch.ResolvedFQDN "." ∧
      x.Content = ch.Key))
    (hr : r.Type_ = "TXT" ∧ r.Name = TrimSuffix ch.ResolvedFQDN "." ∧ r.Content = ch.Key)
    (hid : identifierValue r.ID = some id)
    (hlo : -2147483648 ≤ id) (hhi : id ≤ 2147483647) :
    issued e (CleanUp env ch e).2 =
        [Call.RetrieveRecords zn, Call.DeleteRecord zn id] ∧
      (CleanUp env ch e).2.remote = (client.DeleteRecord zn id s).2 ∧
      ((client.DeleteRecord zn id s).1 = none → (CleanUp env ch e).1 = none) := by
  have hfind : (pre ++ r :: post).find? (isMatch ch) = some r :=
    find_first ch pre post r
      (fun x hx => by
        have := hpre x hx
        rw [← isMatch_iff] at this
        simpa using this)
      ((isMatch_iff ch r).2 hr)
  rw [CleanUp_delete hcfg hret hfind (ParseInt_complete r.ID id hid hlo hhi)]
  refine ⟨issued_append _ _ _ rfl, rfl, ?_⟩
  intro h
  simp [h]

/-- C5 fails as stated. The first matching record of the zone has the identifier
`2147483648`, which is a base-10 integer, and a second matching record follows:
`CleanUp` returns the malformed-identifier error, with the range error of
`strconv.ParseInt`, and issues no `DeleteRecord`; the zone is as it was. -/
theorem CleanUp_deletes_first_match_counterexample :
    identifierValue (challengeRecord "2147483648").ID = some 2147483648 ∧
      (CleanUp exampleEnv exampleRequest
        (startWorld [addressRecord, challengeRecord "2147483648", challengeRecord "8"])).1 =
        some (.malformedIDError ⟨"ParseInt", "2147483648", .ErrRange⟩) ∧
      (CleanUp exampleEnv exampleRequest
        (startWorld [addressRecord, challengeRecord "2147483648",
          challengeRecord "8"])).2.calls =
        [Call.RetrieveRecords "example.com"] ∧
      (CleanUp exampleEnv exampleRequest
        (startWorld [addressRecord, challengeRecord "2147483648",
          challengeRecord "8"])).2.remote =
        [addressRecord, challengeRecord "2147483648", challengeRecord "8"] := by
  refine ⟨by decide, by decide, by decide, by decide⟩

/-- C6: when the first record of the retrieved list that matches (type `TXT`, name,
content) has a non-numeric identifier, `CleanUp` returns the malformed-identifier error
and issues no call after the retrieval, so no `DeleteRecord`, whatever records follow;
the remote state is the one the retrieval left. -/
theorem CleanUp_malformed_identifier {σ : Type} (env : Env σ) (ch : ChallengeRequest)
    (e : World σ) (client : Client σ) (zn : String) (pre post : List Record) (r : Record)
    (s : σ)
    (hcfg : readConfig env ch e = (.ok client, { e with ZoneName := zn }))
    (hret : client.RetrieveRecords zn e.remote = (.ok (pre ++ r :: post), s))
    (hpre : ∀ x ∈ pre, ¬ (x.Type_ = "TXT" ∧ x.Name = TrimSuffix ch.ResolvedFQDN "." ∧
      x.Content = ch.Key))
    (hr : r.Type_ = "TXT" ∧ r.Name = TrimSuffix ch.ResolvedFQDN "." ∧ r.Content = ch.Key)
    (hid : isNumeric r.ID = false) :
    (∃ err, (CleanUp env ch e).1 = some (.malformedIDError err)) ∧
      issued e (CleanUp env ch e).2 = [Call.RetrieveRecords zn] ∧
      (CleanUp env ch e).2.remote = s := by
  have hfind : (pre ++ r :: post).find? (isMatch ch) = some r :=
    find_first ch pre post r
      (fun x hx => by
        have := hpre x hx
        rw [← isMatch_iff] at this
        simpa using this)
      ((isMatch_iff ch r).2 hr)
  obtain ⟨v, err, hparse⟩ := ParseInt_reject_nonnumeric r.ID hid
  rw [CleanUp_malformed hcfg hret hfind hparse]
  exact ⟨⟨err, rfl⟩, issued_append _ _ _ rfl, rfl⟩

/-- C7: when the secrets resolve and the retrieved list holds no record with type `TXT`,
name equal to the FQDN without its trailing dot and content equal to the challenge key,
`CleanUp` returns no error and issues no call after the retrieval: no `DeleteRecord` and
no `CreateRecord`; the remote state is the one the retrieval left. -/
theorem CleanUp_absent_noop {σ : Type} (env : Env σ) (ch : ChallengeRequest)
    (e : World σ) (client : Client σ) (zn : String) (records : List Record) (s : σ)
    (hcfg : readConfig env ch e = (.ok client, { e with ZoneName := zn }))
    (hret : client.RetrieveRecords zn e.remote = (.ok records, s))
    (hnone : ¬ ∃ r ∈ records, r.Type_ = "TXT" ∧ r.Name = TrimSuffix ch.ResolvedFQDN "." ∧
      r.Content = ch.Key) :
    (CleanUp env ch e).1 = none ∧
      issued e (CleanUp env ch e).2 = [Call.RetrieveRecords zn] ∧
      (CleanUp env ch e).2.remote = s := by
  rw [CleanUp_not_found hcfg hret (find_none ch records hnone)]
  exact ⟨rfl, issued_append _ _ _ rfl, rfl⟩

/-- C8: for `Present` and for `CleanUp`, and for each of the three secret references of
the decoded configuration (API key, API secret, zone name): when the referenced secret
cannot be fetched or does not contain the named key, the call returns an
initialization error and leaves the state as it was; no `RetrieveRecords`,
`CreateRecord` or `DeleteRecord` call is issued. -/
theorem resolution_failure_aborts {σ : Type} (env : Env σ) (ch : ChallengeRequest)
    (e : World σ) (cfg : Config) (sel : SecretKeySelector)
    (hdec : decodeConfig env ch = .ok cfg)
    (hsel : sel = cfg.ApiKeySecretRef ∨ sel = cfg.SecretKeySecretRef ∨
      sel = cfg.ZoneNameSecretRef)
    (hfail : (∃ err, env.GetSecret ch.ResourceNamespace sel.Name = .error err) ∨
      (∃ secret, env.GetSecret ch.ResourceNamespace sel.Name = .ok secret ∧
        secret.Data sel.Key = none)) :
    (∃ err, Present env ch e = (some (.initializationError err), e)) ∧
      (∃ err, CleanUp env ch e = (some (.initializationError err), e)) ∧
      issued e (Present env ch e).2 = [] ∧ issued e (CleanUp env ch e).2 = [] := by
  have hres := resolveSecretRef_fail env ch sel hfail
  obtain ⟨err, h⟩ := readConfig_fail env ch e cfg hdec (by
    rcases hsel with rfl | rfl | rfl
    · exact Or.inl hres
    · exact Or.inr (Or.inl hres)
    · exact Or.inr (Or.inr hres))
  have hP : Present env ch e = (some (.initializationError err), e) := by
    simp [Present, h]
  have hC : CleanUp env ch e = (some (.initializationError err), e) := by
    simp [CleanUp, h]
  refine ⟨⟨err, hP⟩, ⟨err, hC⟩, ?_, ?_⟩
  · rw [hP]; simp [issued]
  · rw [hC]; simp [issued]

/-- C9: for a request whose resolved zone ends in a dot, `Z = Z0 + "."`, and whose FQDN
is `L + "." + Z`: the name used for creation is `L`, and the name used for the lookup, in
`Present` and in `CleanUp`, is the FQDN with exactly one trailing dot stripped,
`L + "." + Z0`; a record satisfies the condition of the two scans exactly when it has
type `TXT`, this name and the challenge key as content, and every `CreateRecord` that
`Present` issues carries the name `L`. For the FQDN `_acme-challenge.example.com.` and
the zone `example.com.` the two names are `_acme-challenge` and
`_acme-challenge.example.com`. -/
theorem name_computation (ch : ChallengeRequest) (L Z0 : String)
    (hz : ch.ResolvedZone = Z0 ++ ".")
    (hf : ch.ResolvedFQDN = L ++ "." ++ ch.ResolvedZone) :
    entity ch = L ∧ name ch = L ++ "." ++ Z0 ∧
      (∀ N, ch.ResolvedFQDN = N ++ "." → name ch = N) ∧
      (∀ r, isMatch ch r = true ↔
        r.Type_ = "TXT" ∧ r.Name = L ++ "." ++ Z0 ∧ r.Content = ch.Key) ∧
      (∀ (σ : Type) (env : Env σ) (e : World σ) (d : String) (rec : Record),
        Call.CreateRecord d rec ∈ issued e (Present env ch e).2 → rec.Name = L) ∧
      (∀ key ns cfg,
        entity ⟨"_acme-challenge.example.com.", "example.com.", key, ns, cfg⟩ =
            "_acme-challenge" ∧
          name ⟨"_acme-challenge.example.com.", "example.com.", key, ns, cfg⟩ =
            "_acme-challenge.example.com") := by
  have hent : entity ch = L := by
    unfold entity
    rw [hf, String.append_assoc]
    exact TrimSuffix_append _ _
  have hname : name ch = L ++ "." ++ Z0 := by
    unfold name
    rw [hf, hz, ← String.append_assoc]
    exact TrimSuffix_append _ _
  refine ⟨hent, hname, ?_, ?_, ?_, ?_⟩
  · intro N hN
    unfold name
    rw [hN]
    exact TrimSuffix_append _ _
  · intro r
    rw [isMatch_iff]
    have : TrimSuffix ch.ResolvedFQDN "." = L ++ "." ++ Z0 := hname
    rw [this]
  · intro σ env e d rec hmem
    rcases Present_issued_cases env ch e with h | ⟨zn, h | h⟩
    · rw [h] at hmem; simp at hmem
    · rw [h] at hmem; simp at hmem
    · rw [h] at hmem
      simp only [List.mem_cons, Call.CreateRecord.injEq, List.mem_singleton, false_or,
        List.not_mem_nil, or_false] at hmem
      rcases hmem with hmem | hmem
      · cases hmem
      · rw [hmem.2]
        exact hent
  · intro key ns cfg
    exact ⟨rfl, rfl⟩

/-- C10: the identifier of the first matching record being a decimal numeral `ds` with
an optional sign `+` or `-`: when its value is greater than 2147483647 or less than
-2147483648, `CleanUp` returns the malformed-identifier error and issues no
`DeleteRecord`; when its value lies in [-2147483648, 2147483647], `CleanUp` issues
`DeleteRecord` with that value. -/
theorem CleanUp_identifier_int32 {σ : Type} (env : Env σ) (ch : ChallengeRequest)
    (e : World σ) (client : Client σ) (zn : String) (pre post : List Record) (r : Record)
    (s : σ) (sign ds : List Char)
    (hcfg : readConfig env ch e = (.ok client, { e with ZoneName := zn }))
    (hret : client.RetrieveRecords zn e.remote = (.ok (pre ++ r :: post), s))
    (hpre : ∀ x ∈ pre, ¬ (x.Type_ = "TXT" ∧ x.Name = TrimSuffix ch.ResolvedFQDN "." ∧
      x.Content = ch.Key))
    (hr : r.Type_ = "TXT" ∧ r.Name = TrimSuffix ch.ResolvedFQDN "." ∧ r.Content = ch.Key)
    (hsign : sign = [] ∨ sign = ['+'] ∨ sign = ['-'])
    (hds : isDecimal ds = true)
    (hid : r.ID = ⟨sign ++ ds⟩) :
    ((numeralValue sign ds < -2147483648 ∨ 2147483647 < numeralValue sign ds) →
        (∃ err, (CleanUp env ch e).1 = some (.malformedIDError err)) ∧
        issued e (CleanUp env ch e).2 = [Call.RetrieveRecords zn]) ∧
      ((-2147483648 ≤ numeralValue sign ds ∧ numeralValue sign ds ≤ 2147483647) →
        issued e (CleanUp env ch e).2 =
          [Call.RetrieveRecords zn, Call.DeleteRecord zn (numeralValue sign ds)]) := by
  have hfind : (pre ++ r :: post).find? (isMatch ch) = some r :=
    find_first ch pre post r
      (fun x hx => by
        have := hpre x hx
        rw [← isMatch_iff] at this
        simpa using this)
      ((isMatch_iff ch r).2 hr)
  constructor
  · intro hout
    obtain ⟨v, err, hparse⟩ := ParseInt_reject_range sign ds hsign hds hout
    rw [← hid] at hparse
    rw [CleanUp_malformed hcfg hret hfind hparse]
    exact ⟨⟨err, rfl⟩, issued_append _ _ _ rfl⟩
  · intro hin
    have hparse := ParseInt_accept sign ds hsign hds hin.1 hin.2
    rw [← hid] at hparse
    rw [CleanUp_delete hcfg hret hfind hparse]
    exact issued_append _ _ _ rfl

/-- C1, as amended: over the zone model, for a request whose secrets resolve, whose
resolved zone is the resolved zone name followed by a dot and whose FQDN is
`L + "." + zone`, and a zone that initially holds no matching record: calling `Present`
twice returns no error both times, the second call issues `RetrieveRecords` only (no
`CreateRecord`), and the zone ends with exactly one record of type `TXT`, name equal to
the FQDN without its trailing dot and content equal to the challenge key, the one the
first call created. -/
theorem Present_twice_one_record (um : String → Except String Config)
    (gs : String → String → Except String Secret) (ch : ChallengeRequest)
    (e : World (List Record)) (client : Client (List Record)) (zn L : String)
    (hcfg : readConfig (zoneEnv um gs) ch e = (.ok client, { e with ZoneName := zn }))
    (hz : ch.ResolvedZone = zn ++ ".")
    (hf : ch.ResolvedFQDN = L ++ "." ++ ch.ResolvedZone)
    (hnone : ¬ ∃ r ∈ e.remote, r.Type_ = "TXT" ∧ r.Name = TrimSuffix ch.ResolvedFQDN "." ∧
      r.Content = ch.Key) :
    (Present (zoneEnv um gs) ch e).1 = none ∧
      (Present (zoneEnv um gs) ch (Present (zoneEnv um gs) ch e).2).1 = none ∧
      issued (Present (zoneEnv um gs) ch e).2
          (Present (zoneEnv um gs) ch (Present (zoneEnv um gs) ch e).2).2 =
        [Call.RetrieveRecords zn] ∧
      (Present (zoneEnv um gs) ch (Present (zoneEnv um gs) ch e).2).2.remote =
        e.remote ++ [⟨toString (freshID e.remote), L ++ "." ++ zn, "TXT", ch.Key, "60"⟩] ∧
      matching ch (Present (zoneEnv um gs) ch (Present (zoneEnv um gs) ch e).2).2.remote =
        [⟨toString (freshID e.remote), L ++ "." ++ zn, "TXT", ch.Key, "60"⟩] := by
  have hcl := zoneEnv_client hcfg
  subst hcl
  have hent : entity ch = L := by
    unfold entity
    rw [hf, String.append_assoc]
    exact TrimSuffix_append _ _
  have hname : TrimSuffix ch.ResolvedFQDN "." = L ++ "." ++ zn := by
    rw [hf, hz, ← String.append_assoc]
    exact TrimSuffix_append _ _
  have hret : zoneClient.RetrieveRecords zn e.remote = (.ok e.remote, e.remote) := rfl
  have h1 : Present (zoneEnv um gs) ch e =
      (none, ⟨zn,
        e.remote ++ [⟨toString (freshID e.remote), L ++ "." ++ zn, "TXT", ch.Key, "60"⟩],
        e.calls ++ [Call.RetrieveRecords zn, Call.CreateRecord zn (newRecord ch)]⟩) := by
    rw [Present_not_found hcfg hret (find_none ch e.remote hnone)]
    simp [zoneClient, newRecord, hent]
  have hnew : isMatch ch
      ⟨toString (freshID e.remote), L ++ "." ++ zn, "TXT", ch.Key, "60"⟩ = true := by
    rw [isMatch_iff, hname]
    exact ⟨rfl, rfl, rfl⟩
  have hfind : ∃ r, (e.remote ++
      [(⟨toString (freshID e.remote), L ++ "." ++ zn, "TXT", ch.Key, "60"⟩ : Record)]).find?
        (isMatch ch) = some r := by
    cases hfd : (e.remote ++
      [(⟨toString (freshID e.remote), L ++ "." ++ zn, "TXT", ch.Key, "60"⟩ : Record)]).find?
        (isMatch ch) with
    | some r => exact ⟨r, rfl⟩
    | none =>
      rw [List.find?_eq_none] at hfd
      exact absurd hnew (hfd _ (by simp))
  obtain ⟨r, hfind⟩ := hfind
  have h2 := Present_found
    (readConfig_irrel hcfg (⟨zn,
        e.remote ++ [⟨toString (freshID e.remote), L ++ "." ++ zn, "TXT", ch.Key, "60"⟩],
        e.calls ++ [Call.RetrieveRecords zn, Call.CreateRecord zn (newRecord ch)]⟩ :
        World (List Record)))
    (show zoneClient.RetrieveRecords zn _ = (.ok _, _) from rfl) hfind
  rw [h1]
  refine ⟨rfl, ?_, ?_, ?_, ?_⟩
  · rw [h2]
  · rw [h2]
    exact issued_append _ _ _ rfl
  · rw [h2]
  · rw [h2]
    have h0 : matching ch e.remote = [] := (matching_nil_iff ch e.remote).2 hnone
    rw [matching_eq_filter] at h0 ⊢
    simp only [List.filter_append, h0, List.nil_append]
    simp [List.filter, hnew]

/-- C3: end-to-end round trip over the zone model. For the request with FQDN
`_acme-challenge.foo.example.com.`, zone `example.com.` and key `abc123`, the
zone-name secret resolving to `example.com`, against a zone with no records: `Present`
returns no error and issues exactly one `CreateRecord`, of the record
`{Name: "_acme-challenge.foo", Type: "TXT", Content: "abc123", TTL: "60"}`; a following
`CleanUp` with the same request returns no error and deletes that record by its
identifier, leaving the zone with no records. In general, every record `Present` passes
to `CreateRecord` has type `TXT`, the challenge key as content, TTL `60` and the
zone-relative name (the FQDN with the trailing `.<zone>` stripped) as name. -/
theorem end_to_end_round_trip (um : String → Except String Config)
    (gs : String → String → Except String Secret) (ns : String) (cfg : Option String)
    (e : World (List Record)) (client : Client (List Record))
    (hcfg : readConfig (zoneEnv um gs)
        ⟨"_acme-challenge.foo.example.com.", "example.com.", "abc123", ns, cfg⟩ e =
      (.ok client, { e with ZoneName := "example.com" }))
    (hempty : e.remote = []) :
    ((Present (zoneEnv um gs)
          ⟨"_acme-challenge.foo.example.com.", "example.com.", "abc123", ns, cfg⟩ e).1 = none ∧
      issued e (Present (zoneEnv um gs)
          ⟨"_acme-challenge.foo.example.com.", "example.com.", "abc123", ns, cfg⟩ e).2 =
        [Call.RetrieveRecords "example.com",
          Call.CreateRecord "example.com" ⟨"", "_acme-challenge.foo", "TXT", "abc123", "60"⟩] ∧
      (Present (zoneEnv um gs)
          ⟨"_acme-challenge.foo.example.com.", "example.com.", "abc123", ns, cfg⟩ e).2.remote =
        [⟨"1", "_acme-challenge.foo.example.com", "TXT", "abc123", "60"⟩]) ∧
    ((CleanUp (zoneEnv um gs)
          ⟨"_acme-challenge.foo.example.com.", "example.com.", "abc123", ns, cfg⟩
          (Present (zoneEnv um gs)
            ⟨"_acme-challenge.foo.example.com.", "example.com.", "abc123", ns, cfg⟩ e).2).1 =
        none ∧
      issued
          (Present (zoneEnv um gs)
            ⟨"_acme-challenge.foo.example.com.", "example.com.", "abc123", ns, cfg⟩ e).2
          (CleanUp (zoneEnv um gs)
            ⟨"_acme-challenge.foo.example.com.", "example.com.", "abc123", ns, cfg⟩
            (Present (zoneEnv um gs)
              ⟨"_acme-challenge.foo.example.com.", "example.com.", "abc123", ns, cfg⟩ e).2).2 =
        [Call.RetrieveRecords "example.com", Call.DeleteRecord "example.com" 1] ∧
      (CleanUp (zoneEnv um gs)
          ⟨"_acme-challenge.foo.example.com.", "example.com.", "abc123", ns, cfg⟩
          (Present (zoneEnv um gs)
            ⟨"_acme-challenge.foo.example.com.", "example.com.", "abc123", ns, cfg⟩
            e).2).2.remote = []) ∧
    (∀ (σ : Type) (env : Env σ) (ch : ChallengeRequest) (w : World σ) (d : String)
        (rec : Record),
      Call.CreateRecord d rec ∈ issued w (Present env ch w).2 →
        rec.Type_ = "TXT" ∧ rec.Content = ch.Key ∧ rec.TTL = "60" ∧
          rec.Name = TrimSuffix ch.ResolvedFQDN ("." ++ ch.ResolvedZone)) := by
  have hcl := zoneEnv_client hcfg
  subst hcl
  have hret : zoneClient.RetrieveRecords "example.com" e.remote = (.ok [], e.remote) := by
    rw [hempty]
    rfl
  have h1 : Present (zoneEnv um gs)
      ⟨"_acme-challenge.foo.example.com.", "example.com.", "abc123", ns, cfg⟩ e =
      (none, ⟨"example.com",
        [⟨"1", "_acme-challenge.foo.example.com", "TXT", "abc123", "60"⟩],
        e.calls ++ [Call.RetrieveRecords "example.com",
          Call.CreateRecord "example.com"
            ⟨"", "_acme-challenge.foo", "TXT", "abc123", "60"⟩]⟩) := by
    rw [Present_not_found hcfg hret rfl, hempty]
    rfl
  have h2 := CleanUp_delete
    (readConfig_irrel hcfg (⟨"example.com",
        [⟨"1", "_acme-challenge.foo.example.com", "TXT", "abc123", "60"⟩],
        e.calls ++ [Call.RetrieveRecords "example.com",
          Call.CreateRecord "example.com"
            ⟨"", "_acme-challenge.foo", "TXT", "abc123", "60"⟩]⟩ : World (List Record)))
    (show zoneClient.RetrieveRecords "example.com" _ = (.ok _, _) from rfl)
    (show List.find? _ _ =
      some ⟨"1", "_acme-challenge.foo.example.com", "TXT", "abc123", "60"⟩ from rfl)
    (show ParseInt "1" 10 32 = (1, none) by decide)
  rw [h1]
  refine ⟨⟨rfl, issued_append _ _ _ rfl, rfl⟩, ⟨?_, ?_, ?_⟩, ?_⟩
  · rw [h2]
    rfl
  · rw [h2]
    exact issued_append _ _ _ rfl
  · rw [h2]
    rfl
  · intro σ env ch w d rec hmem
    rcases Present_issued_cases env ch w with h | ⟨zn, h | h⟩
    · rw [h] at hmem; simp at hmem
    · rw [h] at hmem; simp at hmem
    · rw [h] at hmem
      simp only [List.mem_cons, Call.CreateRecord.injEq, List.mem_singleton, false_or,
        List.not_mem_nil, or_false] at hmem
      rcases hmem with hmem | hmem
      · cases hmem
      · rw [hmem.2]
        exact ⟨rfl, rfl, rfl, rfl⟩

/-- C4, as amended: over the zone model, for every request and every initial zone that
holds at most one record with type `TXT`, name equal to the FQDN without its trailing
dot and content equal to the challenge key, whenever `CleanUp` returns without error no
such record remains in the zone. -/
theorem CleanUp_removes_unique_match (um : String → Except String Config)
    (gs : String → String → Except String Secret) (ch : ChallengeRequest)
    (e : World (List Record))
    (huniq : (matching ch e.remote).length ≤ 1)
    (hok : (CleanUp (zoneEnv um gs) ch e).1 = none) :
    ¬ ∃ r ∈ (CleanUp (zoneEnv um gs) ch e).2.remote,
      r.Type_ = "TXT" ∧ r.Name = TrimSuffix ch.ResolvedFQDN "." ∧ r.Content = ch.Key := by
  rcases readConfig_cases (zoneEnv um gs) ch e with ⟨err, h⟩ | ⟨client, zn, hcfg⟩
  · simp [CleanUp, h] at hok
  · have hcl := zoneEnv_client hcfg
    subst hcl
    have hret : zoneClient.RetrieveRecords zn e.remote = (.ok e.remote, e.remote) := rfl
    cases hfind : e.remote.find? (isMatch ch) with
    | none =>
      rw [CleanUp_not_found hcfg hret hfind]
      rw [List.find?_eq_none] at hfind
      rintro ⟨r, hr, hm⟩
      exact hfind r hr ((isMatch_iff ch r).2 hm)
    | some r =>
      cases hp : ParseInt r.ID 10 32 with
      | mk v oerr =>
        cases oerr with
        | some err =>
          rw [CleanUp_malformed hcfg hret hfind hp] at hok
          simp at hok
        | none =>
          rw [CleanUp_delete hcfg hret hfind hp]
          have hid : recordID r = some v := (ParseInt_sound r.ID v hp).1
          have hrmem : r ∈ e.remote := List.mem_of_find?_eq_some hfind
          have hrm : isMatch ch r = true := List.find?_some hfind
          have hany : (e.remote.any (fun x => recordID x == some v)) = true := by
            rw [List.any_eq_true]
            exact ⟨r, hrmem, by simp [hid]⟩
          have hdel : (zoneClient.DeleteRecord zn v e.remote).2 =
              e.remote.filter (fun x => !(recordID x == some v)) := by
            simp only [zoneClient, hany, if_true]
          simp only [hdel]
          rintro ⟨x, hx, hm⟩
          rw [List.mem_filter] at hx
          have hxm : x ∈ matching ch e.remote := by
            rw [matching_eq_filter, List.mem_filter]
            exact ⟨hx.1, (isMatch_iff ch x).2 hm⟩
          have hrm2 : r ∈ matching ch e.remote := by
            rw [matching_eq_filter, List.mem_filter]
            exact ⟨hrmem, hrm⟩
          have hxr : x = r := by
            cases hl : matching ch e.remote with
            | nil => rw [hl] at hxm; simp at hxm
            | cons a l =>
              cases l with
              | nil =>
                rw [hl] at hxm hrm2
                simp only [List.mem_singleton] at hxm hrm2
                rw [hxm, hrm2]
              | cons b l2 =>
                rw [hl] at huniq
                simp at huniq
          rw [hxr, hid] at hx
          simp at hx

/-- C1 fails as stated. The request is for a name in a delegated subzone (resolved zone
`foo.example.com.`) while the zone-name secret holds `example.com`: the secrets resolve
and the zone is empty, the first `Present` creates the record `_acme-challenge`, which
the zone lists as `_acme-challenge.example.com`; the second `Present` looks for
`_acme-challenge.foo.example.com`, finds nothing and issues `CreateRecord` again. Both
calls return no error, the zone ends with two records and none of them has the name of
the FQDN without its trailing dot. -/
theorem Present_twice_counterexample :
    readConfig exampleEnv delegatedRequest (startWorld []) =
        (.ok zoneClient, { startWorld [] with ZoneName := "example.com" }) ∧
      (Present exampleEnv delegatedRequest (startWorld [])).1 = none ∧
      (Present exampleEnv delegatedRequest
        (Present exampleEnv delegatedRequest (startWorld [])).2).1 = none ∧
      issued (Present exampleEnv delegatedRequest (startWorld [])).2
          (Present exampleEnv delegatedRequest
            (Present exampleEnv delegatedRequest (startWorld [])).2).2 =
        [Call.RetrieveRecords "example.com",
          Call.CreateRecord "example.com" ⟨"", "_acme-challenge", "TXT", "abc123", "60"⟩] ∧
      (Present exampleEnv delegatedRequest
          (Present exampleEnv delegatedRequest (startWorld [])).2).2.remote =
        [⟨"1", "_acme-challenge.example.com", "TXT", "abc123", "60"⟩,
          ⟨"2", "_acme-challenge.example.com", "TXT", "abc123", "60"⟩] ∧
      (matching delegatedRequest
          (Present exampleEnv delegatedRequest
            (Present exampleEnv delegatedRequest (startWorld [])).2).2.remote).length ≠ 1 := by
  refine ⟨rfl, ?_, ?_, ?_, ?_, ?_⟩ <;> decide

/-- C4 fails as stated. The zone holds the challenge record twice, under the identifiers
1 and 2: `CleanUp` returns no error after deleting the record 1 alone, and the record 2,
of type `TXT` with the name and the content of the request, remains in the zone. -/
theorem CleanUp_duplicate_counterexample :
    (CleanUp exampleEnv exampleRequest
        (startWorld [challengeRecord "1", challengeRecord "2"])).1 = none ∧
      (CleanUp exampleEnv exampleRequest
        (startWorld [challengeRecord "1", challengeRecord "2"])).2.calls =
        [Call.RetrieveRecords "example.com", Call.DeleteRecord "example.com" 1] ∧
      (CleanUp exampleEnv exampleRequest
        (startWorld [challengeRecord "1", challengeRecord "2"])).2.remote =
        [challengeRecord "2"] ∧
      (∃ r ∈ (CleanUp exampleEnv exampleRequest
          (startWorld [challengeRecord "1", challengeRecord "2"])).2.remote,
        r.Type_ = "TXT" ∧ r.Name = TrimSuffix exampleRequest.ResolvedFQDN "." ∧
          r.Content = exampleRequest.Key) := by
  refine ⟨by decide, by decide, by decide, challengeRecord "2", by decide, by decide⟩

/-! ## Instances of the properties on the example environment -/

/-- Instance of C1 as amended: `exampleRequest` presented twice to an empty zone. -/
theorem Present_twice_one_record_witness :
    issued (Present exampleEnv exampleRequest (startWorld [])).2
        (Present exampleEnv exampleRequest
          (Present exampleEnv exampleRequest (startWorld [])).2).2 =
        [Call.RetrieveRecords "example.com"] ∧
      matching exampleRequest
        (Present exampleEnv exampleRequest
          (Present exampleEnv exampleRequest (startWorld [])).2).2.remote =
        [challengeRecord "1"] :=
  have h := Present_twice_one_record exampleUnmarshal exampleGetSecret exampleRequest
    (startWorld []) zoneClient "example.com" "_acme-challenge.foo" rfl (by decide)
    (by decide) (by decide)
  ⟨h.2.2.1, h.2.2.2.2⟩

/-- Instance of C2: the zone holds a record with the type and the name of the challenge
but another content; `Present` creates the record. -/
theorem Present_creates_iff_no_match_witness :
    issued (startWorld [⟨"5", "_acme-challenge.foo.example.com", "TXT", "other", "60"⟩])
        (Present exampleEnv exampleRequest
          (startWorld [⟨"5", "_acme-challenge.foo.example.com", "TXT", "other", "60"⟩])).2 =
      [Call.RetrieveRecords "example.com",
        Call.CreateRecord "example.com" (newRecord exampleRequest)] :=
  (Present_creates_iff_no_match exampleEnv exampleRequest
    (startWorld [⟨"5", "_acme-challenge.foo.example.com", "TXT", "other", "60"⟩])
    zoneClient "example.com"
    [⟨"5", "_acme-challenge.foo.example.com", "TXT", "other", "60"⟩]
    [⟨"5", "_acme-challenge.foo.example.com", "TXT", "other", "60"⟩] rfl rfl).2.2 (by decide)

/-- Instance of C3: the scenario on the example environment. -/
theorem end_to_end_round_trip_witness :
    issued (startWorld []) (Present exampleEnv exampleRequest (startWorld [])).2 =
        [Call.RetrieveRecords "example.com",
          Call.CreateRecord "example.com" ⟨"", "_acme-challenge.foo", "TXT", "abc123", "60"⟩] ∧
      (CleanUp exampleEnv exampleRequest
        (Present exampleEnv exampleRequest (startWorld [])).2).2.remote = [] :=
  have h := end_to_end_round_trip exampleUnmarshal exampleGetSecret "cert-manager"
    (some exampleBlob) (startWorld []) zoneClient rfl rfl
  ⟨h.1.2.1, h.2.1.2.2⟩

/-- Instance of C4 as amended: a zone holding the challenge record once. -/
theorem CleanUp_removes_unique_match_witness :
    ¬ ∃ r ∈ (CleanUp exampleEnv exampleRequest
        (startWorld [addressRecord, challengeRecord "1"])).2.remote,
      r.Type_ = "TXT" ∧ r.Name = TrimSuffix exampleRequest.ResolvedFQDN "." ∧
        r.Content = exampleRequest.Key :=
  CleanUp_removes_unique_match exampleUnmarshal exampleGetSecret exampleRequest
    (startWorld [addressRecord, challengeRecord "1"]) (by decide) (by decide)

/-- Instance of C5 as amended: the challenge record twice, after an unrelated record; only the
first one, of identifier 7, is deleted. -/
theorem CleanUp_deletes_first_match_witness :
    issued (startWorld [addressRecord, challengeRecord "7", challengeRecord "8"])
        (CleanUp exampleEnv exampleRequest
          (startWorld [addressRecord, challengeRecord "7", challengeRecord "8"])).2 =
      [Call.RetrieveRecords "example.com", Call.DeleteRecord "example.com" 7] :=
  (CleanUp_deletes_first_match exampleEnv exampleRequest
    (startWorld [addressRecord, challengeRecord "7", challengeRecord "8"])
    zoneClient "example.com" [addressRecord] [challengeRecord "8"] (challengeRecord "7") 7
    [addressRecord, challengeRecord "7", challengeRecord "8"] rfl rfl (by decide)
    (by decide) (by decide) (by decide) (by decide)).1

/-- Instance of C6: the first matching record has the identifier `abc`, the second a
numeric one; nothing is deleted. -/
theorem CleanUp_malformed_identifier_witness :
    issued (startWorld [challengeRecord "abc", challengeRecord "8"])
        (CleanUp exampleEnv exampleRequest
          (startWorld [challengeRecord "abc", challengeRecord "8"])).2 =
        [Call.RetrieveRecords "example.com"] ∧
      (CleanUp exampleEnv exampleRequest
          (startWorld [challengeRecord "abc", challengeRecord "8"])).2.remote =
        [challengeRecord "abc", challengeRecord "8"] :=
  (CleanUp_malformed_identifier exampleEnv exampleRequest
    (startWorld [challengeRecord "abc", challengeRecord "8"])
    zoneClient "example.com" [] [challengeRecord "8"] (challengeRecord "abc")
    [challengeRecord "abc", challengeRecord "8"] rfl rfl (by decide)
    (by decide) (by decide)).2

/-- Instance of C7: a zone without the challenge record. -/
theorem CleanUp_absent_noop_witness :
    (CleanUp exampleEnv exampleRequest (startWorld [addressRecord])).1 = none ∧
      issued (startWorld [addressRecord])
        (CleanUp exampleEnv exampleRequest (startWorld [addressRecord])).2 =
        [Call.RetrieveRecords "example.com"] ∧
      (CleanUp exampleEnv exampleRequest (startWorld [addressRecord])).2.remote =
        [addressRecord] :=
  CleanUp_absent_noop exampleEnv exampleRequest (startWorld [addressRecord])
    zoneClient "example.com" [addressRecord] [addressRecord] rfl rfl (by decide)

/-- Instance of C8: the request comes from a namespace without the secret, so the API
key cannot be fetched. -/
theorem resolution_failure_aborts_witness :
    issued (startWorld [addressRecord])
        (Present exampleEnv strayRequest (startWorld [addressRecord])).2 = [] ∧
      issued (startWorld [addressRecord])
        (CleanUp exampleEnv strayRequest (startWorld [addressRecord])).2 = [] :=
  (resolution_failure_aborts exampleEnv strayRequest (startWorld [addressRecord])
    ⟨⟨"porkbun-secret", "api-key"⟩, ⟨"porkbun-secret", "secret-key"⟩,
      ⟨"porkbun-secret", "zone"⟩⟩
    ⟨"porkbun-secret", "api-key"⟩ rfl (Or.inl rfl)
    (Or.inl ⟨"secrets not found", rfl⟩)).2.2

/-- Instance of C9: the request of the end-to-end scenario. -/
theorem name_computation_witness :
    entity exampleRequest = "_acme-challenge.foo" ∧
      name exampleRequest = "_acme-challenge.foo.example.com" :=
  have h := name_computation exampleRequest "_acme-challenge.foo" "example.com"
    (by decide) (by decide)
  ⟨h.1, h.2.1⟩

/-- Instance of C10: the identifier 2147483648 is rejected, the identifier -2147483648
is accepted. -/
theorem CleanUp_identifier_int32_witness :
    issued (startWorld [challengeRecord "2147483648"])
        (CleanUp exampleEnv exampleRequest (startWorld [challengeRecord "2147483648"])).2 =
        [Call.RetrieveRecords "example.com"] ∧
      issued (startWorld [challengeRecord "-2147483648"])
        (CleanUp exampleEnv exampleRequest (startWorld [challengeRecord "-2147483648"])).2 =
        [Call.RetrieveRecords "example.com",
          Call.DeleteRecord "example.com" (-2147483648)] :=
  ⟨((CleanUp_identifier_int32 exampleEnv exampleRequest
      (startWorld [challengeRecord "2147483648"]) zoneClient "example.com" []
      [] (challengeRecord "2147483648") [challengeRecord "2147483648"] []
      "2147483648".data rfl rfl (by decide) (by decide) (by decide) (by decide) rfl).1
      (by decide)).2,
    (CleanUp_identifier_int32 exampleEnv exampleRequest
      (startWorld [challengeRecord "-2147483648"]) zoneClient "example.com" []
      [] (challengeRecord "-2147483648") [challengeRecord "-2147483648"] ['-']
      "2147483648".data rfl rfl (by decide) (by decide) (by decide) (by decide) rfl).2
      (by decide)⟩

end Porkbun
